import Mathlib

/-!
Shallow embedding of the donation-to-announcement pipeline of the
Tunisian-TTs-reader repository (the Groq webhook variant of the server and
the queue-based client scheduler), together with proofs of the behavioural
claims about it.

Strings are modelled as Lean `String` (lists of Unicode code points); the
JavaScript sources operate on UTF-16 strings, and lengths coincide on the
Basic Multilingual Plane.  The remote text-conversion provider is an
explicit oracle parameter, and the translation cache is explicit state.
-/

namespace TTsReader

/-- Code points removed by the emoji regex of `arabiziToArabic`
(alternatives: U+00A9, U+00AE, the BMP range U+2000..U+3300, and the
surrogate-pair patterns with high surrogates D83C/D83D/D83E, which on
well-formed strings match the astral range U+1F000..U+1FBFF). -/
def isStrippedEmoji (c : Char) : Bool :=
  c.toNat = 0xA9 || c.toNat = 0xAE ||
  (0x2000 ≤ c.toNat && c.toNat ≤ 0x3300) ||
  (0x1F000 ≤ c.toNat && c.toNat ≤ 0x1FBFF)

/-- The JavaScript whitespace class used by `String.prototype.trim`. -/
def isJsWhitespace (c : Char) : Bool :=
  c.toNat = 0x9 || c.toNat = 0xA || c.toNat = 0xB || c.toNat = 0xC ||
  c.toNat = 0xD || c.toNat = 0x20 || c.toNat = 0xA0 || c.toNat = 0x1680 ||
  (0x2000 ≤ c.toNat && c.toNat ≤ 0x200A) ||
  c.toNat = 0x2028 || c.toNat = 0x2029 || c.toNat = 0x202F ||
  c.toNat = 0x205F || c.toNat = 0x3000 || c.toNat = 0xFEFF

/-- `text.replace(emojiRegex, '')`: drop every stripped code point. -/
def stripEmoji (cs : List Char) : List Char :=
  cs.filter (fun c => !isStrippedEmoji c)

/-- The character class `\d` of the regex, i.e. the ASCII digits. -/
def jsIsDigit (c : Char) : Bool :=
  0x30 ≤ c.toNat && c.toNat ≤ 0x39

/-- `text.replace(/(\d)'/g, '$1')`: left-to-right, non-overlapping removal
of an apostrophe that immediately follows a digit. -/
def stripDigitApostrophe : List Char → List Char
  | [] => []
  | [c] => [c]
  | d :: q :: rest =>
    if jsIsDigit d && q = '\'' then d :: stripDigitApostrophe rest
    else d :: stripDigitApostrophe (q :: rest)

/-- `String.prototype.trim`. -/
def jsTrimList (cs : List Char) : List Char :=
  ((cs.dropWhile isJsWhitespace).reverse.dropWhile isJsWhitespace).reverse

/-- `s.trim()` on strings. -/
def jsTrim (s : String) : String :=
  String.mk (jsTrimList s.data)

/-- The pre-cleaning step of `arabiziToArabic`:
`text.replace(emojiRegex, '').replace(/(\d)'/g, '$1').trim()`. -/
def cleanText (text : String) : String :=
  String.mk (jsTrimList (stripDigitApostrophe (stripEmoji text.data)))

/-- The translation cache (`const translationCache = new Map()`), as an
association list; `cacheLookup` finds the most recently stored binding. -/
abbrev Cache := List (String × String)

/-- `translationCache.get`/`has` on the model. -/
def cacheLookup (cache : Cache) (k : String) : Option String :=
  match List.find? (fun p => p.1 = k) cache with
  | some p => some p.2
  | none => none

/-- `translationCache.set k v` (the code only ever sets a key it has just
found absent, so prepending agrees with `Map.set`). -/
def cacheSet (cache : Cache) (k v : String) : Cache :=
  (k, v) :: cache

/-- Outcome of the remote Groq chat-completion call:
`err` models a thrown exception, `ok content` a successful response whose
`choices[0]?.message?.content` is `content` (`none` when absent). -/
inductive RemoteOutcome where
  | err : RemoteOutcome
  | ok : Option String → RemoteOutcome

/-- Scan for the closing `**` of a lazy `(.*?)` group: collect content
characters (which may not include a line terminator, since `.` does not
match one) until an adjacent pair of asterisks. -/
def findClose : List Char → Option (List Char)
  | '*' :: '*' :: _ => some []
  | '\n' :: _ => none
  | c :: rest => (findClose rest).map (fun l => c :: l)
  | [] => none

/-- First full match content of `/\*\*(.*?)\*\*/g`: at each start position
with an adjacent `**`, lazily seek a closing `**` on the same line; on
failure advance the start by one character. -/
def firstBoldMatch : List Char → Option (List Char)
  | [] => none
  | c :: rest =>
    match c, rest with
    | '*', '*' :: rest2 =>
      (match findClose rest2 with
       | some content => some content
       | none => firstBoldMatch rest)
    | _, _ => firstBoldMatch rest

/-- `s.split('\n')` on the code points. -/
def splitLines : List Char → List (List Char)
  | [] => [[]]
  | c :: rest =>
    if c = '\n' then [] :: splitLines rest
    else
      match splitLines rest with
      | [] => [[c]]
      | l :: ls => (c :: l) :: ls

/-- `arabic.split('\n').find(line => line.trim().length > 0) || arabic`,
guarded by `arabic.includes('\n')`. -/
def firstNonEmptyLine (s : String) : String :=
  if s.data.contains '\n' then
    match List.find? (fun line => (jsTrim line).length > 0)
        ((splitLines s.data).map String.mk) with
    | some line => line
    | none => s
  else s

/-- `if (arabic && arabic.length > 190) arabic = arabic.substring(0, 190)`. -/
def truncate190 (s : String) : String :=
  if s.length > 190 then String.mk (s.data.take 190) else s

/-- Post-processing of the raw remote content inside the `try` block:
`trim() || ''`, then emphasis-markup extraction (first bold span, with the
`**` delimiters removed and the span trimmed), then first non-empty line,
then the 190-character hard truncation. -/
def postClean (content : Option String) : String :=
  let arabic := match content with
    | some s => jsTrim s
    | none => ""
  let arabic := if arabic ≠ "" then
      match firstBoldMatch arabic.data with
      | some span => jsTrim (String.mk span)
      | none => arabic
    else arabic
  let arabic := if arabic ≠ "" then firstNonEmptyLine arabic else arabic
  truncate190 arabic

/-- Result of one call to `arabiziToArabic`: the returned string, the cache
after the call, and whether the remote provider was invoked. -/
structure NormResult where
  result : String
  cache : Cache
  remoteCalled : Bool

/-- `async function arabiziToArabic(text)` (the Groq variant): pre-clean;
short-circuit on empty; cache lookup; otherwise call the remote provider —
on success post-clean, fall back to the cleaned text when the result is
empty, store in the cache and return; on a thrown error return the cleaned
text without caching. -/
def arabiziToArabic (remote : String → RemoteOutcome) (cache : Cache)
    (text : String) : NormResult :=
  let cleanedText := cleanText text
  if cleanedText = "" then
    { result := "", cache := cache, remoteCalled := false }
  else
    match cacheLookup cache cleanedText with
    | some v => { result := v, cache := cache, remoteCalled := false }
    | none =>
      match remote cleanedText with
      | RemoteOutcome.err =>
        { result := cleanedText, cache := cache, remoteCalled := true }
      | RemoteOutcome.ok content =>
        let arabic := postClean content
        let result := if arabic = "" then cleanedText else arabic
        { result := result, cache := cacheSet cache cleanedText result,
          remoteCalled := true }

end TTsReader


namespace TTsReader

/-- Hexadecimal digit (uppercase), as produced by `encodeURIComponent`. -/
def toHexDigit (n : Nat) : Char :=
  if n < 10 then Char.ofNat (48 + n) else Char.ofNat (55 + n)

/-- One percent-encoded byte. -/
def byteToHex (b : Nat) : List Char :=
  ['%', toHexDigit (b / 16), toHexDigit (b % 16)]

/-- UTF-8 encoding of one code point. -/
def utf8Bytes (c : Char) : List Nat :=
  let n := c.toNat
  if n < 0x80 then [n]
  else if n < 0x800 then [0xC0 + n / 64, 0x80 + n % 64]
  else if n < 0x10000 then
    [0xE0 + n / 4096, 0x80 + (n / 64) % 64, 0x80 + n % 64]
  else
    [0xF0 + n / 262144, 0x80 + (n / 4096) % 64, 0x80 + (n / 64) % 64,
     0x80 + n % 64]

/-- Characters `encodeURIComponent` leaves unescaped. -/
def isUnreservedURI (c : Char) : Bool :=
  c.isAlphanum || c = '-' || c = '_' || c = '.' || c = '!' || c = '~' ||
  c = '*' || c = '\'' || c = '(' || c = ')'

/-- `encodeURIComponent`. -/
def encodeURIComponent (s : String) : String :=
  String.mk (s.data.foldr
    (fun c acc =>
      (if isUnreservedURI c then [c]
       else (utf8Bytes c).foldr (fun b acc2 => byteToHex b ++ acc2) []) ++ acc)
    [])

/-- The `asset` object of the Ba9chich payload (`asset?.name`). -/
structure Asset where
  name : Option String
deriving DecidableEq, Repr

/-- The inbound webhook JSON body: each field is `none` when `undefined`
(`donor` stands for `donor?.username`). -/
structure Payload where
  paymentID : Option String
  message : Option String
  donor : Option String
  amount : Option Int
  asset : Option Asset
deriving DecidableEq, Repr

/-- JavaScript string truthiness applied to an optional string:
`undefined` and the empty string are falsy. -/
def strTruthy : Option String → Bool
  | none => false
  | some s => s ≠ ""

/-- `o || d` on an optional string with a string default. -/
def jsOrElse (o : Option String) (d : String) : String :=
  match o with
  | none => d
  | some s => if s = "" then d else s

/-- `donor?.username || 'Anonymous'`. -/
def donorName (donor : Option String) : String :=
  jsOrElse donor "Anonymous"

/-- `asset?.name`. -/
def assetName : Option Asset → Option String
  | none => none
  | some a => a.name

/-- ASCII lowercasing, as `toLowerCase` acts on the ASCII asset names the
gate compares against the prefix `diamond`. -/
def jsToLower (s : String) : String :=
  String.mk (s.data.map Char.toLower)

/-- `s.startsWith(pre)`: prefix test on the code points. -/
def jsStartsWith (s pre : String) : Bool :=
  List.isPrefixOf pre.data s.data

/-- `asset?.name?.toLowerCase().startsWith('diamond')`. -/
def assetGated (asset : Option Asset) : Bool :=
  match assetName asset with
  | none => false
  | some n => jsStartsWith (jsToLower n) "diamond"

/-- The full `donation` event object emitted to clients. -/
structure DonationMsg where
  paymentID : String
  donor : String
  displayAmount : String
  amountValue : Int
  assetType : Option String
  original : String
  arabicText : String
  ttsUrl : String
deriving DecidableEq, Repr

/-- Observable actions of the webhook handler, in program order:
HTTP responses, socket broadcasts, and remote text-conversion calls. -/
inductive SrvAction where
  | respond (status : Nat)
  | emitNoMessage (donor : String) (amount : Int) (asset : Option String)
  | emitDonation (msg : DonationMsg)
  | remoteCall (input : String)
deriving DecidableEq, Repr

/-- Is the action an HTTP response? -/
def SrvAction.isRespond : SrvAction → Bool
  | SrvAction.respond _ => true
  | _ => false

/-- Is the action a socket broadcast (`io.emit`)? -/
def SrvAction.isEmit : SrvAction → Bool
  | SrvAction.emitNoMessage _ _ _ => true
  | SrvAction.emitDonation _ => true
  | _ => false

/-- `app.post('/webhook')` (the Groq variant): validate the three required
fields (400 on absence); acknowledge with 200; threshold-gate
diamond-prefixed assets strictly below the threshold; drop a present but
whitespace-only message; broadcast `donation_nomessage` for a falsy
message; otherwise normalize the message and broadcast the full `donation`
event with the local TTS URL.  Returns the action trace in program order
and the translation cache after the request. -/
def webhook (threshold : Int) (remote : String → RemoteOutcome)
    (cache : Cache) (p : Payload) : List SrvAction × Cache :=
  if p.paymentID.isNone || p.amount.isNone || p.asset.isNone then
    ([SrvAction.respond 400], cache)
  else
    let amount := p.amount.getD 0
    let ack := SrvAction.respond 200
    if assetGated p.asset && decide (amount < threshold) then
      ([ack], cache)
    else if strTruthy p.message && jsTrim (p.message.getD "") = "" then
      ([ack], cache)
    else if !strTruthy p.message then
      ([ack, SrvAction.emitNoMessage (donorName p.donor) amount
               (assetName p.asset)], cache)
    else
      let m := p.message.getD ""
      let res := arabiziToArabic remote cache m
      let ttsUrl := "/audio?text=" ++ encodeURIComponent res.result
      let msg : DonationMsg :=
        { paymentID := p.paymentID.getD ""
          donor := donorName p.donor
          displayAmount := toString amount ++ " " ++
            jsOrElse (assetName p.asset) ""
          amountValue := amount
          assetType := assetName p.asset
          original := m
          arabicText := res.result
          ttsUrl := ttsUrl }
      ([ack] ++
       (if res.remoteCalled then [SrvAction.remoteCall (cleanText m)] else [])
       ++ [SrvAction.emitDonation msg], res.cache)

/-- `app.get('/audio')`: reject a falsy `text` query with 400 and no
synthesis call; otherwise call the synthesizer (status 200 when it streams,
500 when it throws before any byte is sent).  Returns the status and
whether the remote synthesizer was invoked. -/
def audioHandler (synthOk : String → Bool) (text : Option String) :
    Nat × Bool :=
  if !strTruthy text then (400, false)
  else if synthOk (text.getD "") then (200, true)
  else (500, true)

end TTsReader

namespace TTsReader

/-- The `data` object a client receives on a `donation` event (the fields
`client.js` destructures, plus the queued payload's TTS reference, which is
`none` when the field is `undefined`). -/
structure ClientEvent where
  donor : String
  amount : String
  original : String
  arabicText : String
  ttsUrl : Option String
deriving DecidableEq, Repr

/-- The server's `donation` payload as the client sees it. -/
def DonationMsg.toClientEvent (m : DonationMsg) : ClientEvent :=
  { donor := m.donor, amount := m.displayAmount, original := m.original,
    arabicText := m.arabicText, ttsUrl := some m.ttsUrl }

/-- JavaScript falsiness of the `ttsUrl` field (`!ttsUrl`). -/
def ttsFalsy : Option String → Bool
  | none => true
  | some s => s = ""

/-- `const TTS_DELAY_MS = 4000`. -/
def ttsDelayMs : Nat := 4000

/-- Where the scheduler stands with respect to the current audio element:
idle, inside the `setTimeout` pre-roll, or playing. -/
inductive Phase where
  | idle : Phase
  | waitingDelay : ClientEvent → Phase
  | playing : ClientEvent → Phase
deriving DecidableEq, Repr

/-- Per-client scheduler state: the `unlocked` and `isPlaying` flags, the
`donationQueue` array, and the current playback phase. -/
structure ClientState where
  unlocked : Bool
  isPlaying : Bool
  donationQueue : List ClientEvent
  phase : Phase
deriving DecidableEq, Repr

/-- The state before any user interaction. -/
def initialClient : ClientState :=
  { unlocked := false, isPlaying := false, donationQueue := [], phase := Phase.idle }

/-- External stimuli driving the client: an incoming `donation` event, the
user's unlock click, the pre-roll timer firing, and the audio element
finishing (`ended`, or an `error`/rejected `play()` when the flag is
true — the handlers converge in `onAudioEnd`). -/
inductive Stimulus where
  | donation : ClientEvent → Stimulus
  | unlock : Stimulus
  | delayElapsed : Stimulus
  | playbackDone : Bool → Stimulus
deriving DecidableEq, Repr

/-- Observable client outputs: activity-log entries for received events,
the missing-URL warning, the scheduled pre-roll, playback starts, and the
`audioFinished` signal to the server. -/
inductive Output where
  | logged : ClientEvent → Output
  | warnedMissingTts : ClientEvent → Output
  | scheduledDelay : Nat → ClientEvent → Output
  | startedPlayback : ClientEvent → Output
  | emittedAudioFinished : Output
deriving DecidableEq, Repr

/-- `processQueue()`: a no-op while playing, with an empty queue, or before
unlock; otherwise set `isPlaying`, shift the queue head and schedule its
playback after the fixed pre-roll delay. -/
def processQueue (s : ClientState) : ClientState × List Output :=
  if s.isPlaying || s.donationQueue.isEmpty || !s.unlocked then (s, [])
  else
    match s.donationQueue with
    | [] => (s, [])
    | e :: rest =>
      ({ s with
          isPlaying := true
          donationQueue := rest
          phase := Phase.waitingDelay e },
       [Output.scheduledDelay ttsDelayMs e])

/-- One reaction of `client.js` to a stimulus.  A `donation` is always
logged; before unlock it is queued unconditionally; after unlock an event
with a falsy `ttsUrl` is dropped with a warning, any other is queued and
`processQueue` runs.  `unlock` sets the flag and runs `processQueue`.  The
timer moves a waiting event into playback.  `onAudioEnd` (reached from
`ended`, from `error`, and from a rejected `play()`) emits `audioFinished`,
clears `isPlaying` and runs `processQueue`. -/
def step (s : ClientState) : Stimulus → ClientState × List Output
  | Stimulus.donation e =>
    if !s.unlocked then
      ({ s with donationQueue := s.donationQueue ++ [e] }, [Output.logged e])
    else if ttsFalsy e.ttsUrl then
      (s, [Output.logged e, Output.warnedMissingTts e])
    else
      let s' := { s with donationQueue := s.donationQueue ++ [e] }
      let r := processQueue s'
      (r.1, Output.logged e :: r.2)
  | Stimulus.unlock =>
    let r := processQueue { s with unlocked := true }
    (r.1, r.2)
  | Stimulus.delayElapsed =>
    match s.phase with
    | Phase.waitingDelay e =>
      ({ s with phase := Phase.playing e }, [Output.startedPlayback e])
    | _ => (s, [])
  | Stimulus.playbackDone _ =>
    match s.phase with
    | Phase.playing _ =>
      let r := processQueue { s with isPlaying := false, phase := Phase.idle }
      (r.1, Output.emittedAudioFinished :: r.2)
    | _ => (s, [])

/-- Run the client over a stimulus list, accumulating outputs in order. -/
def runClient (s : ClientState) : List Stimulus → ClientState × List Output
  | [] => (s, [])
  | st :: rest =>
    let r := step s st
    let r2 := runClient r.1 rest
    (r2.1, r.2 ++ r2.2)

/-- The stimulus schedule that lets each in-flight playback run to its end:
for each flag `b`, the pre-roll timer fires and then playback completes
(with `b` recording whether it ended in an error). -/
def driveSeq : List Bool → List Stimulus
  | [] => []
  | b :: bs => Stimulus.delayElapsed :: Stimulus.playbackDone b :: driveSeq bs

/-- The outputs one queued event contributes when it is played to the end:
pre-roll scheduling, playback start, and the finish signal. -/
def playCycle (e : ClientEvent) : List Output :=
  [Output.scheduledDelay ttsDelayMs e, Output.startedPlayback e,
   Output.emittedAudioFinished]

end TTsReader

namespace TTsReader

/-- A freshly stored cache binding is found by lookup. -/
theorem cacheLookup_set_self (cache : Cache) (k v : String) :
    cacheLookup (cacheSet cache k v) k = some v := by
  simp [cacheLookup, cacheSet, List.find?]

/-- Storing a new key leaves every existing binding visible. -/
theorem cacheLookup_set_preserve (cache : Cache) (k v k2 v2 : String)
    (h : cacheLookup cache k2 = some v2) (hnew : cacheLookup cache k = none) :
    cacheLookup (cacheSet cache k v) k2 = some v2 := by
  have hne : ¬ (k = k2) := by
    rintro rfl
    rw [h] at hnew
    cases hnew
  simp only [cacheLookup, cacheSet, List.find?]
  simp [hne]
  simpa [cacheLookup] using h

/-- No call to the normalizer ever removes or changes an existing
translation-cache binding. -/
theorem arabiziToArabic_preserves_cache (remote : String → RemoteOutcome)
    (cache : Cache) (text k v : String)
    (h : cacheLookup cache k = some v) :
    cacheLookup (arabiziToArabic remote cache text).cache k = some v := by
  unfold arabiziToArabic
  by_cases hc : cleanText text = ""
  · simp [hc, h]
  · simp only [hc, if_false, if_neg hc]
    cases hl : cacheLookup cache (cleanText text) with
    | some w => simp [h]
    | none =>
      cases hr : remote (cleanText text) with
      | err => simp [h]
      | ok content =>
        simp only []
        exact cacheLookup_set_preserve _ _ _ _ _ h hl

end TTsReader

namespace TTsReader

/-- Claim C5: when the remote conversion call throws, `arabiziToArabic`
returns the cleaned original text as a deterministic fallback (it never
raises: the model is a total function), stores nothing in the translation
cache, and a retry on the same input performs the remote call again. -/
theorem arabiziToArabic_err (remote : String → RemoteOutcome) (cache : Cache)
    (text : String)
    (hclean : cleanText text ≠ "")
    (hmiss : cacheLookup cache (cleanText text) = none)
    (herr : remote (cleanText text) = RemoteOutcome.err) :
    arabiziToArabic remote cache text =
      { result := cleanText text, cache := cache, remoteCalled := true } ∧
    (arabiziToArabic remote (arabiziToArabic remote cache text).cache
        text).remoteCalled = true := by
  have h1 : arabiziToArabic remote cache text =
      { result := cleanText text, cache := cache, remoteCalled := true } := by
    unfold arabiziToArabic
    simp [hclean, hmiss, herr]
  refine ⟨h1, ?_⟩
  rw [h1]
  unfold arabiziToArabic
  simp [hclean, hmiss, herr]

/-- Shape of a successful cache-miss call to the normalizer. -/
theorem arabiziToArabic_ok (remote : String → RemoteOutcome) (cache : Cache)
    (t1 : String) (content : Option String)
    (hclean : cleanText t1 ≠ "")
    (hmiss : cacheLookup cache (cleanText t1) = none)
    (hok : remote (cleanText t1) = RemoteOutcome.ok content) :
    arabiziToArabic remote cache t1 =
      { result := if postClean content = "" then cleanText t1 else postClean content,
        cache := cacheSet cache (cleanText t1)
          (if postClean content = "" then cleanText t1 else postClean content),
        remoteCalled := true } := by
  unfold arabiziToArabic
  simp [hclean, hmiss, hok]

/-- Claim C6: after a first successful call, a second call on any input
that cleans to the same cleaned text returns the identical stored result
without a remote call and without touching the cache; and cache entries,
once stored, are never evicted or invalidated by any later call. -/
theorem norm_cache_idem (remote : String → RemoteOutcome) (cache : Cache)
    (t1 t2 : String) (content : Option String)
    (hclean : cleanText t1 ≠ "")
    (hmiss : cacheLookup cache (cleanText t1) = none)
    (hok : remote (cleanText t1) = RemoteOutcome.ok content)
    (hsame : cleanText t2 = cleanText t1) :
    arabiziToArabic remote (arabiziToArabic remote cache t1).cache t2 =
      { result := (arabiziToArabic remote cache t1).result,
        cache := (arabiziToArabic remote cache t1).cache,
        remoteCalled := false } ∧
    (∀ (cache2 : Cache) (text k v : String), cacheLookup cache2 k = some v →
      cacheLookup (arabiziToArabic remote cache2 text).cache k = some v) := by
  refine ⟨?_, fun cache2 text k v h => arabiziToArabic_preserves_cache remote cache2 text k v h⟩
  rw [arabiziToArabic_ok remote cache t1 content hclean hmiss hok]
  unfold arabiziToArabic
  rw [hsame]
  simp [hclean, cacheLookup_set_self]

end TTsReader

namespace TTsReader

/-- The hard truncation bounds the length by 190. -/
theorem truncate190_le (s : String) : (truncate190 s).length ≤ 190 := by
  unfold truncate190
  split
  · show (String.mk (List.take 190 s.data)).length ≤ 190
    have h1 : (String.mk (List.take 190 s.data)).length = (List.take 190 s.data).length := rfl
    rw [h1, List.length_take]
    omega
  · omega

/-- Every post-cleaned remote result is at most 190 characters. -/
theorem postClean_le (content : Option String) : (postClean content).length ≤ 190 := by
  unfold postClean
  exact truncate190_le _

/-- Claim C10: the 190-character hard truncation applies only to the
remote conversion result (third conjunct); when the remote call throws or
succeeds with an empty post-cleaned result, the normalizer returns the
cleaned input in full, so a cleaned input longer than 190 characters
yields a result longer than 190 characters on these fallback paths. -/
theorem trunc_fallback (remote : String → RemoteOutcome) (cache : Cache)
    (text : String)
    (hclean : cleanText text ≠ "")
    (hmiss : cacheLookup cache (cleanText text) = none)
    (hfb : remote (cleanText text) = RemoteOutcome.err ∨
      ∃ content, remote (cleanText text) = RemoteOutcome.ok content ∧
        postClean content = "") :
    (arabiziToArabic remote cache text).result = cleanText text ∧
    ((cleanText text).length > 190 →
      (arabiziToArabic remote cache text).result.length > 190) ∧
    (∀ content : Option String, (postClean content).length ≤ 190) := by
  have hres : (arabiziToArabic remote cache text).result = cleanText text := by
    rcases hfb with herr | ⟨content, hok, hempty⟩
    · unfold arabiziToArabic
      simp [hclean, hmiss, herr]
    · rw [arabiziToArabic_ok remote cache text content hclean hmiss hok]
      simp [hempty]
  exact ⟨hres, fun h => by rw [hres]; exact h, postClean_le⟩

end TTsReader

namespace TTsReader

/-- JavaScript whitespace characters are not ASCII digits. -/
theorem jsWhitespace_not_digit (c : Char) (h : isJsWhitespace c = true) :
    jsIsDigit c = false := by
  simp only [isJsWhitespace, Bool.or_eq_true, decide_eq_true_eq,
    Bool.and_eq_true] at h
  simp only [jsIsDigit, Bool.and_eq_false_iff, decide_eq_false_iff_not]
  omega

/-- The digit-apostrophe replacement is the identity on digit-free text. -/
theorem stripDigitApostrophe_of_no_digit : ∀ cs : List Char,
    (∀ c ∈ cs, jsIsDigit c = false) → stripDigitApostrophe cs = cs
  | [], _ => rfl
  | [c], _ => rfl
  | d :: q :: rest, h => by
    unfold stripDigitApostrophe
    rw [h d (by simp)]
    rw [stripDigitApostrophe_of_no_digit (q :: rest)
      (fun c hc => h c (List.mem_cons_of_mem _ hc))]
    simp

/-- Pre-cleaning a text consisting only of whitespace or stripped
pictographic code points yields the empty string. -/
theorem cleanText_of_ws_emoji (text : String)
    (h : ∀ c ∈ text.data, isJsWhitespace c = true ∨ isStrippedEmoji c = true) :
    cleanText text = "" := by
  unfold cleanText
  have h1 : ∀ c ∈ stripEmoji text.data, isJsWhitespace c = true := by
    intro c hc
    unfold stripEmoji at hc
    rw [List.mem_filter] at hc
    rcases h c hc.1 with hw | he
    · exact hw
    · exfalso
      have h2 := hc.2
      rw [he] at h2
      simp at h2
  rw [stripDigitApostrophe_of_no_digit _
    (fun c hc => jsWhitespace_not_digit c (h1 c hc))]
  unfold jsTrimList
  have h2 : List.dropWhile isJsWhitespace (stripEmoji text.data) = [] := by
    rw [List.dropWhile_eq_nil_iff]
    exact fun c hc => h1 c hc
  rw [h2]
  rfl

end TTsReader

namespace TTsReader

/-- For every payload passing field validation, the handler trace is the
200 acknowledgment followed only by non-response actions. -/
theorem webhook_validated_shape (threshold : Int)
    (remote : String → RemoteOutcome) (cache : Cache) (p : Payload)
    (h1 : p.paymentID ≠ none) (h2 : p.amount ≠ none) (h3 : p.asset ≠ none) :
    ∃ rest, (webhook threshold remote cache p).1 =
        SrvAction.respond 200 :: rest ∧
      ∀ a ∈ rest, a.isRespond = false := by
  unfold webhook
  rw [if_neg (by simp [Option.isNone_iff_eq_none, h1, h2, h3])]
  dsimp only
  split
  · exact ⟨[], rfl, by simp⟩
  · split
    · exact ⟨[], rfl, by simp⟩
    · split
      · exact ⟨[SrvAction.emitNoMessage (donorName p.donor) (p.amount.getD 0)
          (assetName p.asset)], rfl, by simp [SrvAction.isRespond]⟩
      · refine ⟨_, rfl, ?_⟩
        intro a ha
        rcases List.mem_append.mp ha with h | h
        · split at h
          · simp at h
            subst h
            rfl
          · simp at h
        · simp at h
          subst h
          rfl

/-- Claim C2: a payload with `paymentID`, `amount` or `asset` undefined
gets HTTP 400 with no broadcast and no other side effect (the cache is
untouched and the trace holds nothing else); a payload with all three
defined gets HTTP 200 as its first action, regardless of any downstream
suppression. -/
theorem webhook_validation (threshold : Int) (remote : String → RemoteOutcome)
    (cache : Cache) (p : Payload) :
    (p.paymentID = none ∨ p.amount = none ∨ p.asset = none →
      webhook threshold remote cache p = ([SrvAction.respond 400], cache)) ∧
    (p.paymentID ≠ none → p.amount ≠ none → p.asset ≠ none →
      (webhook threshold remote cache p).1.head? =
        some (SrvAction.respond 200)) := by
  constructor
  · intro h
    unfold webhook
    rcases h with h | h | h <;> simp [h]
  · intro h1 h2 h3
    obtain ⟨rest, hr, -⟩ := webhook_validated_shape threshold remote cache p h1 h2 h3
    rw [hr]
    rfl

/-- Claim C4: for every payload that passes validation, the HTTP 200
acknowledgment is the first action of the handler trace, strictly before
the threshold check, normalization with its remote call, and any
broadcast; every later action is a non-response (the response never waits
on them). -/
theorem webhook_ack_first (threshold : Int) (remote : String → RemoteOutcome)
    (cache : Cache) (p : Payload)
    (h1 : p.paymentID ≠ none) (h2 : p.amount ≠ none) (h3 : p.asset ≠ none) :
    (webhook threshold remote cache p).1.head? =
      some (SrvAction.respond 200) ∧
    ∀ a ∈ (webhook threshold remote cache p).1.tail, a.isRespond = false := by
  obtain ⟨rest, hr, hall⟩ := webhook_validated_shape threshold remote cache p h1 h2 h3
  rw [hr]
  exact ⟨rfl, by simpa using hall⟩

end TTsReader

namespace TTsReader

/-- Claim C1, amended: for a validated donation the handler broadcasts no
event of any kind iff the asset name case-insensitively starts with
`diamond` and the amount is strictly below the threshold, OR the message
is present, non-empty and whitespace-only (the blank-message branch also
broadcasts nothing).  The original claim lacked the second disjunct. -/
theorem webhook_suppress_iff (threshold : Int) (remote : String → RemoteOutcome)
    (cache : Cache) (p : Payload)
    (h1 : p.paymentID ≠ none) (h2 : p.amount ≠ none) (h3 : p.asset ≠ none) :
    ((webhook threshold remote cache p).1.all (fun a => !a.isEmit)) = true ↔
      ((assetGated p.asset = true ∧ p.amount.getD 0 < threshold) ∨
       (strTruthy p.message = true ∧ jsTrim (p.message.getD "") = "")) := by
  unfold webhook
  rw [if_neg (by simp [Option.isNone_iff_eq_none, h1, h2, h3])]
  dsimp only
  split
  next h =>
    simp only [Bool.and_eq_true, decide_eq_true_eq] at h
    simp [SrvAction.isEmit, h]
  next h =>
    rw [Bool.and_eq_true, decide_eq_true_eq] at h
    split
    next h2' =>
      rw [Bool.and_eq_true, decide_eq_true_eq] at h2'
      simp [SrvAction.isEmit, h2']
    next h2' =>
      rw [Bool.and_eq_true, decide_eq_true_eq] at h2'
      split
      next h3' =>
        simp [SrvAction.isEmit, h, h2']
      next h3' =>
        split <;> simp [SrvAction.isEmit, h, h2']

end TTsReader

namespace TTsReader

/-- Claim C3, amended: for a validated, non-suppressed donation, an
absent or empty-string message yields exactly the `donation_nomessage`
broadcast carrying only donor, amount and asset — no normalization (the
cache is untouched, no remote-call action) and no audio reference; a
present, non-empty, whitespace-only message yields no broadcast at all.
The original claim said blank messages also get `donation_nomessage`. -/
theorem webhook_nomessage (threshold : Int) (remote : String → RemoteOutcome)
    (cache : Cache) (p : Payload)
    (h1 : p.paymentID ≠ none) (h2 : p.amount ≠ none) (h3 : p.asset ≠ none)
    (hsup : ¬(assetGated p.asset = true ∧ p.amount.getD 0 < threshold)) :
    (p.message = none ∨ p.message = some "" →
      webhook threshold remote cache p =
        ([SrvAction.respond 200,
          SrvAction.emitNoMessage (donorName p.donor) (p.amount.getD 0)
            (assetName p.asset)], cache)) ∧
    (∀ m, p.message = some m → m ≠ "" → jsTrim m = "" →
      webhook threshold remote cache p = ([SrvAction.respond 200], cache)) := by
  have hg : ¬((assetGated p.asset && decide (p.amount.getD 0 < threshold)) = true) := by
    rw [Bool.and_eq_true, decide_eq_true_eq]
    exact hsup
  constructor
  · intro hm
    unfold webhook
    rw [if_neg (by simp [Option.isNone_iff_eq_none, h1, h2, h3])]
    dsimp only
    rw [if_neg hg]
    rcases hm with hm | hm <;> simp [hm, strTruthy]
  · intro m hm hne htrim
    unfold webhook
    rw [if_neg (by simp [Option.isNone_iff_eq_none, h1, h2, h3])]
    dsimp only
    rw [if_neg hg]
    rw [if_pos (by simp [hm, strTruthy, hne, htrim])]

end TTsReader

namespace TTsReader

/-- Running the client over concatenated stimuli composes. -/
theorem runClient_append (s : ClientState) (l1 l2 : List Stimulus) :
    runClient s (l1 ++ l2) =
      ((runClient (runClient s l1).1 l2).1,
       (runClient s l1).2 ++ (runClient (runClient s l1).1 l2).2) := by
  induction l1 generalizing s with
  | nil => simp [runClient]
  | cons st rest ih =>
    simp only [List.cons_append, runClient, List.append_eq]
    rw [ih]
    simp [List.append_assoc]

/-- Before unlock, incoming donations are appended to the queue in arrival
order and only logged. -/
theorem runClient_enqueue (es : List ClientEvent) (q : List ClientEvent) :
    runClient ⟨false, false, q, Phase.idle⟩ (es.map Stimulus.donation) =
      (⟨false, false, q ++ es, Phase.idle⟩, es.map Output.logged) := by
  induction es generalizing q with
  | nil => simp [runClient]
  | cons e rest ih =>
    simp only [List.map_cons, runClient, step]
    simp only [Bool.not_false, if_pos]
    rw [ih (q ++ [e])]
    simp

/-- Driving the scheduler from an unlocked idle state with queue `es`
plays the events in queue order: each is dequeued, scheduled after the
fixed pre-roll, played, and finished with an `audioFinished` signal,
independently of which playbacks error. -/
theorem runClient_drive (es : List ClientEvent) (errs : List Bool)
    (h : errs.length = es.length) :
    (runClient (processQueue ⟨true, false, es, Phase.idle⟩).1
        (driveSeq errs)).1 = ⟨true, false, [], Phase.idle⟩ ∧
    (processQueue ⟨true, false, es, Phase.idle⟩).2 ++
      (runClient (processQueue ⟨true, false, es, Phase.idle⟩).1
        (driveSeq errs)).2 = es.flatMap playCycle := by
  induction es generalizing errs with
  | nil =>
    cases errs with
    | nil => simp [processQueue, runClient, driveSeq]
    | cons b bs => simp at h
  | cons e rest ih =>
    cases errs with
    | nil => simp at h
    | cons b bs =>
      simp only [List.length_cons, Nat.succ_inj] at h
      have hpq : processQueue ⟨true, false, e :: rest, Phase.idle⟩ =
        (⟨true, true, rest, Phase.waitingDelay e⟩,
         [Output.scheduledDelay ttsDelayMs e]) := by
        simp [processQueue]
      rw [hpq]
      simp only [driveSeq, runClient, step]
      obtain ⟨ih1, ih2⟩ := ih bs h
      constructor
      · exact ih1
      · simp only [List.flatMap_cons, playCycle]
        rw [← ih2]
        simp

end TTsReader

namespace TTsReader

/-- Claim C8: queue N donation events, unlock, and let each playback run
to completion or error (`errs` says which): the outputs are exactly the
receipt logs followed, in FIFO order, by one pre-roll delay of 4000 ms,
one playback start, and one `audioFinished` signal per event — the right
side does not depend on `errs`, so an error on event k never prevents
event k+1; afterwards `isPlaying` is clear and the queue empty.  Moreover
`processQueue` is a no-op whenever a playback is in flight, so at most one
playback is ever started at a time. -/
theorem client_scheduler_fifo (es : List ClientEvent) (errs : List Bool)
    (h : errs.length = es.length) :
    runClient initialClient
        (es.map Stimulus.donation ++ Stimulus.unlock :: driveSeq errs) =
      (⟨true, false, [], Phase.idle⟩,
       es.map Output.logged ++ es.flatMap playCycle) ∧
    (∀ s : ClientState, s.isPlaying = true → processQueue s = (s, [])) := by
  constructor
  · rw [runClient_append]
    have h1 : runClient initialClient (es.map Stimulus.donation) =
        (⟨false, false, es, Phase.idle⟩, es.map Output.logged) := by
      have := runClient_enqueue es []
      simpa [initialClient] using this
    rw [h1]
    dsimp only
    have h2 : runClient (⟨false, false, es, Phase.idle⟩ : ClientState)
        (Stimulus.unlock :: driveSeq errs) =
        ((runClient (processQueue ⟨true, false, es, Phase.idle⟩).1
            (driveSeq errs)).1,
         (processQueue ⟨true, false, es, Phase.idle⟩).2 ++
           (runClient (processQueue ⟨true, false, es, Phase.idle⟩).1
             (driveSeq errs)).2) := by
      simp [runClient, step]
    rw [h2]
    obtain ⟨hd1, hd2⟩ := runClient_drive es errs h
    rw [hd1, hd2]
  · intro s hs
    simp [processQueue, hs]

end TTsReader

namespace TTsReader

/-- Claim C9, amended: once audio is unlocked, a donation event whose
`ttsUrl` is missing (or empty) is dropped with a logged warning, never
enqueued (the state is unchanged), and still appears in the activity log.
Contrary to the original claim this does NOT hold before unlock, where the
event is enqueued without the check. -/
theorem unlocked_missing_tts_dropped (s : ClientState) (e : ClientEvent)
    (hu : s.unlocked = true) (ht : ttsFalsy e.ttsUrl = true) :
    step s (Stimulus.donation e) =
      (s, [Output.logged e, Output.warnedMissingTts e]) := by
  simp [step, hu, ht]

/-- Claim C7, amended: a text of only whitespace or stripped pictographic
content pre-cleans to empty, so the normalizer returns an empty string
with no remote call; but the validated, non-suppressed donation carrying
such a (non-blank) message is still broadcast with `ttsUrl`
`/audio?text=` — which the unlocked client enqueues and schedules for
playback, the attempt then failing because the audio endpoint rejects the
empty text with 400 and no synthesis call.  The original claim said no
playback is attempted. -/
theorem emptyclean_no_audio (remote : String → RemoteOutcome) (cache : Cache)
    (threshold : Int) (p : Payload) (m : String)
    (hws : ∀ c ∈ m.data, isJsWhitespace c = true ∨ isStrippedEmoji c = true) :
    arabiziToArabic remote cache m =
      { result := "", cache := cache, remoteCalled := false } ∧
    (p.paymentID ≠ none → p.amount ≠ none → p.asset ≠ none →
     ¬(assetGated p.asset = true ∧ p.amount.getD 0 < threshold) →
     p.message = some m → m ≠ "" → jsTrim m ≠ "" →
      webhook threshold remote cache p =
        ([SrvAction.respond 200, SrvAction.emitDonation
            ⟨p.paymentID.getD "", donorName p.donor,
             toString (p.amount.getD 0) ++ " " ++ jsOrElse (assetName p.asset) "",
             p.amount.getD 0, assetName p.asset, m, "", "/audio?text="⟩], cache)) ∧
    (∀ synth : String → Bool, audioHandler synth (some "") = (400, false)) ∧
    (∀ e : ClientEvent, e.ttsUrl = some "/audio?text=" →
      step ⟨true, false, [], Phase.idle⟩ (Stimulus.donation e) =
        (⟨true, true, [], Phase.waitingDelay e⟩,
         [Output.logged e, Output.scheduledDelay ttsDelayMs e])) := by
  have hc : cleanText m = "" := cleanText_of_ws_emoji m hws
  have hnorm : arabiziToArabic remote cache m =
      { result := "", cache := cache, remoteCalled := false } := by
    unfold arabiziToArabic
    simp [hc]
  refine ⟨hnorm, ?_, fun synth => rfl, ?_⟩
  · intro h1 h2 h3 hsup hm hne htrim
    unfold webhook
    rw [if_neg (by simp [Option.isNone_iff_eq_none, h1, h2, h3])]
    dsimp only
    rw [if_neg (by rw [Bool.and_eq_true, decide_eq_true_eq]; exact hsup)]
    rw [if_neg (by simp [hm, strTruthy, hne, htrim])]
    rw [if_neg (by simp [hm, strTruthy, hne])]
    rw [hm]
    dsimp only [Option.getD_some]
    rw [hnorm]
    simp [encodeURIComponent]
  · intro e he
    simp [step, ttsFalsy, he, processQueue]

end TTsReader

namespace TTsReader

/-- Counterexample to claim C1 as stated: a validated donation of the
non-gated asset `gold` with a whitespace-only message has no event of any
kind broadcast even though the asset does not start with `diamond`. -/
theorem webhook_suppress_ce :
    webhook 0 (fun _ => RemoteOutcome.err) []
        ⟨some "p1", some " ", some "Ali", some 7, some ⟨some "gold"⟩⟩ =
      ([SrvAction.respond 200], []) ∧
    assetGated (some ⟨some "gold"⟩) = false := by
  constructor
  · rfl
  · rfl

/-- Witness instantiating the amended claim C1 theorem. -/
theorem webhook_suppress_iff_witness :
    ((webhook 5 (fun _ => RemoteOutcome.err) []
        ⟨some "p", some "hi", none, some 3, some ⟨some "Diamonds"⟩⟩).1.all
        (fun a => !a.isEmit)) = true ↔
      ((assetGated (some ⟨some "Diamonds"⟩) = true ∧ (3 : Int) < 5) ∨
       (strTruthy (some "hi") = true ∧ jsTrim "hi" = "")) :=
  webhook_suppress_iff 5 (fun _ => RemoteOutcome.err) []
    ⟨some "p", some "hi", none, some 3, some ⟨some "Diamonds"⟩⟩
    (by decide) (by decide) (by decide)

/-- Witness instantiating the claim C2 theorem on both branches. -/
theorem webhook_validation_witness :
    webhook 0 (fun _ => RemoteOutcome.err) []
        ⟨none, some "x", some "D", some 1, some ⟨some "gold"⟩⟩ =
      ([SrvAction.respond 400], []) ∧
    (webhook 0 (fun _ => RemoteOutcome.err) []
        ⟨some "p", some "x", some "D", some 1, some ⟨some "gold"⟩⟩).1.head? =
      some (SrvAction.respond 200) :=
  ⟨(webhook_validation 0 (fun _ => RemoteOutcome.err) []
      ⟨none, some "x", some "D", some 1, some ⟨some "gold"⟩⟩).1 (Or.inl rfl),
   (webhook_validation 0 (fun _ => RemoteOutcome.err) []
      ⟨some "p", some "x", some "D", some 1, some ⟨some "gold"⟩⟩).2
     (by decide) (by decide) (by decide)⟩

/-- Counterexample to claim C3 as stated: a validated, non-suppressed
donation with a present whitespace-only (blank) message broadcasts no
`donation_nomessage` event — the trace holds only the 200 response. -/
theorem webhook_nomessage_ce :
    webhook 5 (fun _ => RemoteOutcome.err) []
        ⟨some "p2", some " ", some "Bob", some 9, some ⟨some "gold"⟩⟩ =
      ([SrvAction.respond 200], []) := by
  rfl

/-- Witness instantiating the amended claim C3 theorem. -/
theorem webhook_nomessage_witness :
    webhook 0 (fun _ => RemoteOutcome.err) []
        ⟨some "p", none, some "Ann", some 4, some ⟨some "gold"⟩⟩ =
      ([SrvAction.respond 200,
        SrvAction.emitNoMessage "Ann" 4 (some "gold")], []) :=
  (webhook_nomessage 0 (fun _ => RemoteOutcome.err) []
      ⟨some "p", none, some "Ann", some 4, some ⟨some "gold"⟩⟩
      (by decide) (by decide) (by decide) (by decide)).1 (Or.inl rfl)

/-- Witness instantiating the claim C4 theorem. -/
theorem webhook_ack_first_witness :
    (webhook 0 (fun _ => RemoteOutcome.err) []
        ⟨some "p", some "hello", some "Dee", some 2, some ⟨some "gold"⟩⟩).1.head? =
      some (SrvAction.respond 200) ∧
    ∀ a ∈ (webhook 0 (fun _ => RemoteOutcome.err) []
        ⟨some "p", some "hello", some "Dee", some 2, some ⟨some "gold"⟩⟩).1.tail,
      a.isRespond = false :=
  webhook_ack_first 0 (fun _ => RemoteOutcome.err) []
    ⟨some "p", some "hello", some "Dee", some 2, some ⟨some "gold"⟩⟩
    (by decide) (by decide) (by decide)

end TTsReader

namespace TTsReader

/-- Witness instantiating the claim C5 theorem. -/
theorem arabiziToArabic_err_witness :
    arabiziToArabic (fun _ => RemoteOutcome.err) [] "hi" =
      { result := cleanText "hi", cache := [], remoteCalled := true } ∧
    (arabiziToArabic (fun _ => RemoteOutcome.err)
        (arabiziToArabic (fun _ => RemoteOutcome.err) [] "hi").cache
        "hi").remoteCalled = true :=
  arabiziToArabic_err (fun _ => RemoteOutcome.err) [] "hi"
    (by decide) rfl rfl

/-- Witness instantiating the claim C6 theorem. -/
theorem norm_cache_idem_witness :
    arabiziToArabic (fun _ => RemoteOutcome.ok (some "ar"))
        (arabiziToArabic (fun _ => RemoteOutcome.ok (some "ar")) [] "hi").cache
        " hi " =
      { result := (arabiziToArabic (fun _ => RemoteOutcome.ok (some "ar")) [] "hi").result,
        cache := (arabiziToArabic (fun _ => RemoteOutcome.ok (some "ar")) [] "hi").cache,
        remoteCalled := false } ∧
    (∀ (cache2 : Cache) (text k v : String), cacheLookup cache2 k = some v →
      cacheLookup (arabiziToArabic (fun _ => RemoteOutcome.ok (some "ar"))
          cache2 text).cache k = some v) :=
  norm_cache_idem (fun _ => RemoteOutcome.ok (some "ar")) [] "hi" " hi "
    (some "ar") (by decide) rfl rfl (by decide)

/-- Witness instantiating the claim C10 theorem on a 200-character
input. -/
theorem trunc_fallback_witness :
    (arabiziToArabic (fun _ => RemoteOutcome.err) []
        (String.mk (List.replicate 200 'a'))).result =
      cleanText (String.mk (List.replicate 200 'a')) ∧
    ((cleanText (String.mk (List.replicate 200 'a'))).length > 190 →
      (arabiziToArabic (fun _ => RemoteOutcome.err) []
        (String.mk (List.replicate 200 'a'))).result.length > 190) ∧
    (∀ content : Option String, (postClean content).length ≤ 190) :=
  trunc_fallback (fun _ => RemoteOutcome.err) []
    (String.mk (List.replicate 200 'a')) (by decide) rfl (Or.inl rfl)

end TTsReader

namespace TTsReader

/-- Counterexample to claim C7 as stated: an emoji-only message is
broadcast with `ttsUrl` equal to `/audio?text=`, and a client that has
unlocked audio schedules and starts playback for it. -/
theorem emoji_playback_ce :
    (webhook 0 (fun _ => RemoteOutcome.err) []
        ⟨some "p1", some "😀", some "Ali", some 5, some ⟨some "diamonds"⟩⟩).1 =
      [SrvAction.respond 200, SrvAction.emitDonation
        ⟨"p1", "Ali", "5 diamonds", 5, some "diamonds", "😀", "", "/audio?text="⟩] ∧
    (runClient ⟨true, false, [], Phase.idle⟩
        [Stimulus.donation ⟨"Ali", "5 diamonds", "😀", "", some "/audio?text="⟩,
         Stimulus.delayElapsed]).2 =
      [Output.logged ⟨"Ali", "5 diamonds", "😀", "", some "/audio?text="⟩,
       Output.scheduledDelay 4000 ⟨"Ali", "5 diamonds", "😀", "", some "/audio?text="⟩,
       Output.startedPlayback ⟨"Ali", "5 diamonds", "😀", "", some "/audio?text="⟩] := by
  constructor
  · decide
  · rfl

/-- Witness instantiating the amended claim C7 theorem. -/
theorem emptyclean_no_audio_witness :
    arabiziToArabic (fun _ => RemoteOutcome.err) [] "😀" =
      { result := "", cache := [], remoteCalled := false } ∧
    ((some "p1" : Option String) ≠ none → (some (5 : Int) : Option Int) ≠ none →
     (some (⟨some "diamonds"⟩ : Asset) : Option Asset) ≠ none →
     ¬(assetGated (some ⟨some "diamonds"⟩) = true ∧
        ((some (5 : Int)).getD 0) < (0 : Int)) →
     (some "😀" : Option String) = some "😀" → "😀" ≠ "" → jsTrim "😀" ≠ "" →
      webhook 0 (fun _ => RemoteOutcome.err) []
          ⟨some "p1", some "😀", some "Ali", some 5, some ⟨some "diamonds"⟩⟩ =
        ([SrvAction.respond 200, SrvAction.emitDonation
            ⟨(some "p1" : Option String).getD "", donorName (some "Ali"),
             toString ((some (5 : Int)).getD 0) ++ " " ++
               jsOrElse (assetName (some ⟨some "diamonds"⟩)) "",
             (some (5 : Int)).getD 0, assetName (some ⟨some "diamonds"⟩),
             "😀", "", "/audio?text="⟩], [])) ∧
    (∀ synth : String → Bool, audioHandler synth (some "") = (400, false)) ∧
    (∀ e : ClientEvent, e.ttsUrl = some "/audio?text=" →
      step ⟨true, false, [], Phase.idle⟩ (Stimulus.donation e) =
        (⟨true, true, [], Phase.waitingDelay e⟩,
         [Output.logged e, Output.scheduledDelay ttsDelayMs e])) :=
  emptyclean_no_audio (fun _ => RemoteOutcome.err) [] 0
    ⟨some "p1", some "😀", some "Ali", some 5, some ⟨some "diamonds"⟩⟩ "😀"
    (by decide)

/-- Counterexample to claim C9 as stated: before audio is unlocked, a
donation event with a missing `ttsUrl` IS enqueued for playback. -/
theorem client_missing_tts_ce :
    step initialClient
        (Stimulus.donation ⟨"Ali", "5 diamonds", "msg", "ar", none⟩) =
      ({ unlocked := false, isPlaying := false,
         donationQueue := [⟨"Ali", "5 diamonds", "msg", "ar", none⟩],
         phase := Phase.idle },
       [Output.logged ⟨"Ali", "5 diamonds", "msg", "ar", none⟩]) := by
  rfl

/-- Witness instantiating the amended claim C9 theorem. -/
theorem unlocked_missing_tts_witness :
    step ⟨true, false, [], Phase.idle⟩
        (Stimulus.donation ⟨"Zed", "1 gold", "m", "a", none⟩) =
      ((⟨true, false, [], Phase.idle⟩ : ClientState),
       [Output.logged ⟨"Zed", "1 gold", "m", "a", none⟩,
        Output.warnedMissingTts ⟨"Zed", "1 gold", "m", "a", none⟩]) :=
  unlocked_missing_tts_dropped ⟨true, false, [], Phase.idle⟩
    ⟨"Zed", "1 gold", "m", "a", none⟩ rfl rfl

/-- Witness instantiating the claim C8 theorem on two queued events, the
first of which errors during playback. -/
theorem client_scheduler_fifo_witness :
    runClient initialClient
        (([⟨"A", "2 gold", "x", "y", some "/audio?text=y"⟩,
           ⟨"B", "3 gold", "z", "w", some "/audio?text=w"⟩] :
            List ClientEvent).map Stimulus.donation ++
          Stimulus.unlock :: driveSeq [true, false]) =
      (⟨true, false, [], Phase.idle⟩,
       ([⟨"A", "2 gold", "x", "y", some "/audio?text=y"⟩,
         ⟨"B", "3 gold", "z", "w", some "/audio?text=w"⟩] :
           List ClientEvent).map Output.logged ++
        ([⟨"A", "2 gold", "x", "y", some "/audio?text=y"⟩,
          ⟨"B", "3 gold", "z", "w", some "/audio?text=w"⟩] :
            List ClientEvent).flatMap playCycle) ∧
    (∀ s : ClientState, s.isPlaying = true → processQueue s = (s, [])) :=
  client_scheduler_fifo
    [⟨"A", "2 gold", "x", "y", some "/audio?text=y"⟩,
     ⟨"B", "3 gold", "z", "w", some "/audio?text=w"⟩] [true, false] rfl

end TTsReader
